import Mathlib

/-!
Verification of the statscache core against its specification.

The embedding follows the source:
- `statscache/plugins/__init__.py` : `BasePlugin.__init__` (required-attribute
  check), `BasePlugin.ident`, `BasePlugin.latest`, `BasePlugin.revert`;
- `statscache/app.py` : `paginate`, the `order`/`stop` query handling and the
  page-length constants.

A plugin's persisted Model is a timestamp-indexed collection of rows; the
aggregation and query layers only ever sort, filter, count and delete by the
timestamp, so a Model state is embedded as a `List Int` of row timestamps
(instants are integers).  The SQLAlchemy store queries that the source issues
(`order_by(timestamp.desc()).first()`, `filter(timestamp >= when).delete()`,
`filter(timestamp <= stop)`, `offset`/`limit`) are embedded as the
corresponding list operations.  Python 2 semantics are kept where they matter:
`/` on nonnegative ints is floor division (`Int.fdiv`), `max` treats `None` as
below every instant, and truthiness of a string is nonemptiness.
-/

namespace Statscache

/-- The store query `order_by(model.timestamp.asc())`: rows sorted by
nondecreasing timestamp. -/
def sortAsc (rows : List Int) : List Int :=
  List.insertionSort (fun a b => a ≤ b) rows

/-- The store query `order_by(model.timestamp.desc())`: rows sorted by
nonincreasing timestamp. -/
def sortDesc (rows : List Int) : List Int :=
  List.insertionSort (fun a b => b ≤ a) rows

/-- Python 2 `max` on two instant-or-None values: `None` compares below every
instant. -/
def pyMax : Option Int → Option Int → Option Int
  | none, b => b
  | some x, none => some x
  | some x, some y => some (max x y)

/-- Python 2 `max` over a list of instant-or-None values (the source only
applies it to nonempty lists; the empty case is mapped to `none`). -/
def pyListMax : List (Option Int) → Option Int
  | [] => none
  | x :: xs => xs.foldl pyMax x

/-- `BasePlugin.latest(session)`: the head of the timestamp-descending query
(`None` when the Model is empty), together with `now - backlog_delta` when
`backlog_delta` is set, combined by Python `max`. -/
def latest (rows : List Int) (backlogDelta : Option Int) (now : Int) : Option Int :=
  let times : List (Option Int) := [(sortDesc rows).head?]
  let times := match backlogDelta with
    | none => times
    | some d => times ++ [some (now - d)]
  pyListMax times

/-- `BasePlugin.revert(when, session)`: delete every Model row whose timestamp
satisfies `timestamp >= when`. -/
def revert (when : Int) (rows : List Int) : List Int :=
  rows.filter (fun t => !(decide (when ≤ t)))

/-- The identity attributes of a plugin; `none` embeds Python `None`
(the class-level default for `name`, `summary` and `description`). -/
structure PluginAttrs where
  name : Option String
  summary : Option String
  description : Option String
deriving DecidableEq

/-- Python truthiness of a string-or-None attribute: `None` and the empty
string are falsy. -/
def pyTruthy : Option String → Bool
  | none => false
  | some s => !(s == ("" : String))

/-- The `for attr in required: if not getattr(self, attr): raise` loop of
`BasePlugin.__init__`: fails with the first falsy required attribute. -/
def checkRequired : List (String × Option String) → Except String Unit
  | [] => Except.ok ()
  | (attr, v) :: rest =>
      if pyTruthy v then checkRequired rest else Except.error attr

/-- `BasePlugin.__init__`: construction succeeds only when the required
attributes `name`, `summary`, `description` all pass the truthiness check. -/
def initPlugin (p : PluginAttrs) : Except String PluginAttrs :=
  match checkRequired
      [(("name"), p.name), (("summary"), p.summary), (("description"), p.description)] with
  | Except.ok _ => Except.ok p
  | Except.error e => Except.error e

/-- The punctuation characters stripped by `BasePlugin.ident`. -/
def badChars : List Char := ['"', '\'', '(', ')', '*', '&', '?', ',']

/-- Python `str.replace(old, new)` for a single-character pattern: every
occurrence of `old` is substituted by the string `new`.  Strings are
embedded as lists of characters. -/
def pyReplaceChar (old : Char) (new : List Char) (s : List Char) : List Char :=
  s.flatMap (fun c => if c = old then new else [c])

/-- `BasePlugin.ident`: lower-case the name, replace each space by a hyphen,
strip the punctuation set, and append a hyphen plus the schedule's textual
identity when a schedule is attached. -/
def ident (name : List Char) (schedule : Option (List Char)) : List Char :=
  let i := name.map Char.toLower
  let i := pyReplaceChar ' ' ['-'] i
  let i := badChars.foldl (fun acc c => pyReplaceChar c [] acc) i
  match schedule with
  | some sch => i ++ '-' :: sch
  | none => i

/-- `BasePlugin.ident` lifted to a possibly-absent name: evaluating
`self.name.lower()` on Python `None` raises, embedded as `none`. -/
def identSafe : Option (List Char) → Option (List Char) → Option (List Char)
  | none, _ => none
  | some n, sched => some (ident n sched)

/-- `DEFAULT_ROWS_PER_PAGE` of `app.py`. -/
def defaultRowsPerPage : Int := 100

/-- `MAXIMUM_ROWS_PER_PAGE` of `app.py`. -/
def maximumRowsPerPage : Int := 100

/-- The effective page length computed by `paginate`: the minimum of
`MAXIMUM_ROWS_PER_PAGE` and the requested `rows_per_page` (defaulting to
`DEFAULT_ROWS_PER_PAGE` when the argument is absent). -/
def pageLength (rowsPerPage : Option Int) : Int :=
  min maximumRowsPerPage (rowsPerPage.getD defaultRowsPerPage)

/-- `paginate` of `app.py`: the page count is
`items_count / page_length + (1 if items_count % page_length > 0 else 0)`
(Python 2 floor division and modulus), and the page items are
`offset((page_number - 1) * page_length).limit(page_length)`.
Returns (page items, page count). -/
def paginate {α : Type} (rows : List α) (pageNumber : Int) (rowsPerPage : Option Int) :
    List α × Int :=
  let pageLen := pageLength rowsPerPage
  let itemsCount : Int := rows.length
  let pageCount := itemsCount.fdiv pageLen +
    (if 0 < itemsCount.fmod pageLen then 1 else 0)
  ((rows.drop ((pageNumber - 1) * pageLen).toNat).take pageLen.toNat, pageCount)

/-- The `stop` filter of `plugin_model`:
`query.filter(model.timestamp <= stop)`. -/
def filterStop (rows : List Int) (stop : Int) : List Int :=
  rows.filter (fun t => decide (t ≤ stop))

/-- The ordering branch of `plugin_model`: ascending exactly when the `order`
query argument equals the string `asc`, descending otherwise (including when
the argument is absent). -/
def orderedQuery (order : Option String) (rows : List Int) : List Int :=
  if order = some ("asc") then sortAsc rows else sortDesc rows

/-- C2: `revert(when, store)` deletes every Model row with timestamp `>= when`
and leaves every row with timestamp `< when` unchanged (same membership, same
multiplicity, same relative order), so afterwards the Model contains exactly
the rows whose timestamp is strictly less than `when`. -/
theorem revert_keeps_exactly_strictly_older (when : Int) (rows : List Int) :
    (∀ t : Int, t ∈ revert when rows ↔ t ∈ rows ∧ t < when) ∧
    (∀ t : Int, (revert when rows).count t = if t < when then rows.count t else 0) ∧
    List.Sublist (revert when rows) rows := by
  refine ⟨fun t => ?_, fun t => ?_, List.filter_sublist rows⟩
  · simp [revert, List.mem_filter]
  · by_cases h : t < when
    · rw [if_pos h]
      exact List.count_filter (by simp [not_le.mpr h])
    · rw [if_neg h]
      rw [List.count_eq_zero]
      simp only [revert, List.mem_filter, Bool.not_eq_true, decide_eq_false_iff_not, not_le,
        not_and]
      intro _
      simpa using not_lt.mp h

/-- C2 witness: on the Model `[1, 2, 3]`, reverting as of instant 3 keeps the
row at 2 and removes the row at 3. -/
theorem revert_keeps_exactly_strictly_older_witness :
    (2 : Int) ∈ revert 3 [1, 2, 3] ∧ (revert 3 [1, 2, 3]).count 3 = 0 := by
  constructor
  · exact ((revert_keeps_exactly_strictly_older 3 [1, 2, 3]).1 2).mpr (by decide)
  · rw [(revert_keeps_exactly_strictly_older 3 [1, 2, 3]).2.1 3]
    decide

/-- C9: revert is idempotent — reverting twice at the same instant yields the
same Model state as reverting once. -/
theorem revert_idempotent (when : Int) (rows : List Int) :
    revert when (revert when rows) = revert when rows := by
  simp [revert, List.filter_filter]

/-- C9 witness: idempotence at a concrete instant and Model state. -/
theorem revert_idempotent_witness :
    revert 3 (revert 3 [1, 2, 3, 4]) = revert 3 [1, 2, 3, 4] :=
  revert_idempotent 3 [1, 2, 3, 4]

/-- C7: the `stop` bound of the plugin-model query is inclusive — a row is in
the filtered result iff it is in the Model and its timestamp is at most
`stop` (rows are excluded only when strictly greater), so the row carrying the
maximum timestamp is included when `stop` equals that maximum. -/
theorem filterStop_upper_bound_inclusive (rows : List Int) (stop : Int) :
    (∀ t : Int, t ∈ filterStop rows stop ↔ t ∈ rows ∧ t ≤ stop) ∧
    (∀ m : Int, m ∈ rows → (∀ r ∈ rows, r ≤ m) → m ∈ filterStop rows m) := by
  constructor
  · intro t
    simp [filterStop, List.mem_filter]
  · intro m hm _
    simp [filterStop, List.mem_filter, hm]

/-- C7 witness: with rows `[1, 5, 3]` and `stop = 5` (the maximum row
timestamp), the row at 5 is included. -/
theorem filterStop_upper_bound_inclusive_witness :
    (5 : Int) ∈ filterStop [1, 5, 3] 5 :=
  (filterStop_upper_bound_inclusive [1, 5, 3] 5).2 5 (by decide) (by decide)

/-- C6: the effective page length is the default 100 when no `rows_per_page`
argument is given, and never exceeds the maximum 100 whatever value is
requested. -/
theorem pageLength_default_100_and_capped_100 :
    pageLength none = 100 ∧ (∀ r : Int, pageLength (some r) ≤ 100) ∧
    defaultRowsPerPage = 100 ∧ maximumRowsPerPage = 100 := by
  refine ⟨rfl, fun r => ?_, rfl, rfl⟩
  exact min_le_left _ _

/-- C6 witness: requesting 1000 rows per page still yields a page length of at
most 100, and the absent-argument default is 100. -/
theorem pageLength_default_100_and_capped_100_witness :
    pageLength (some 1000) ≤ 100 ∧ pageLength none = 100 :=
  ⟨pageLength_default_100_and_capped_100.2.1 1000,
   pageLength_default_100_and_capped_100.1⟩

/-- C3 counterexample: a plugin whose `name`, `summary` and `description`
attributes are all present — but whose `name` is the empty string — still
fails construction, because the source checks Python truthiness
(`if not getattr(self, attr)`), not mere presence. -/
theorem initPlugin_present_but_empty_fails :
    (PluginAttrs.mk (some ("")) (some ("s")) (some ("d"))).name.isSome = true ∧
    (PluginAttrs.mk (some ("")) (some ("s")) (some ("d"))).summary.isSome = true ∧
    (PluginAttrs.mk (some ("")) (some ("s")) (some ("d"))).description.isSome = true ∧
    initPlugin (PluginAttrs.mk (some ("")) (some ("s")) (some ("d")))
      = Except.error ("name") :=
  ⟨rfl, rfl, rfl, rfl⟩

/-- C3 (amended): construction succeeds exactly when `name`, `summary` and
`description` are all present and nonempty (Python-truthy); it raises when any
of the three is absent or is the empty string. -/
theorem initPlugin_ok_iff_all_truthy (p : PluginAttrs) :
    (initPlugin p).isOk =
      (pyTruthy p.name && pyTruthy p.summary && pyTruthy p.description) := by
  simp only [initPlugin, checkRequired]
  cases pyTruthy p.name <;> cases pyTruthy p.summary <;>
    cases pyTruthy p.description <;> rfl

/-- C3 witness: a plugin with three nonempty attributes constructs
successfully. -/
theorem initPlugin_ok_iff_all_truthy_witness :
    (initPlugin (PluginAttrs.mk (some ("a")) (some ("b")) (some ("c")))).isOk
      = true := by
  rw [initPlugin_ok_iff_all_truthy]
  rfl

/-- C8: the ident computation is total and deterministic — on any plugin whose
name is an actual string, it returns a result (never the raised-exception
outcome reserved for an absent name), and two evaluations on the same name and
same attached schedule yield the same identifier. -/
theorem identSafe_total_and_deterministic (n : List Char) (sched : Option (List Char)) :
    (identSafe (some n) sched).isSome = true ∧
    identSafe (some n) sched = identSafe (some n) sched :=
  ⟨rfl, rfl⟩

/-- C8 witness: totality at a concrete name and schedule. -/
theorem identSafe_total_and_deterministic_witness :
    (identSafe (some (['a', ' ', 'b'])) none).isSome = true :=
  (identSafe_total_and_deterministic (['a', ' ', 'b']) none).1

/-- Replacing a character by the empty string is the same as filtering it
out. -/
lemma pyReplaceChar_empty_eq_filter (c : Char) (s : List Char) :
    pyReplaceChar c [] s = s.filter (fun ch => !(ch == c)) := by
  induction s with
  | nil => rfl
  | cons a s ih =>
    by_cases h : a = c <;> simp [pyReplaceChar, List.filter_cons, h] at ih ⊢ <;>
      exact ih

/-- Replacing a character by a single character is the same as mapping the
substitution over the string. -/
lemma pyReplaceChar_single_eq_map (old nc : Char) (s : List Char) :
    pyReplaceChar old [nc] s = s.map (fun c => if c = old then nc else c) := by
  induction s with
  | nil => rfl
  | cons a s ih =>
    by_cases h : a = old <;> simp [pyReplaceChar, h] at ih ⊢ <;> exact ih

/-- Folding single-character deletions over a character set is the same as one
filter against membership in the set. -/
lemma foldl_strip_eq_filter (cs : List Char) (s : List Char) :
    cs.foldl (fun acc c => pyReplaceChar c [] acc) s
      = s.filter (fun ch => !(cs.contains ch)) := by
  induction cs generalizing s with
  | nil => simp
  | cons c cs ih =>
    rw [List.foldl_cons, ih, pyReplaceChar_empty_eq_filter, List.filter_filter]
    congr 1
    funext ch
    by_cases h : ch = c <;> by_cases h2 : ch ∈ cs <;>
      simp [h, h2, Bool.and_comm]

/-- The ident computation as the claim words it (spec-side): name lower-cased,
spaces REMOVED, punctuation set stripped, schedule identity suffixed. -/
def identClaimed (name : List Char) (schedule : Option (List Char)) : List Char :=
  let i := (name.map Char.toLower).filter (fun c => !(c == ' '))
  let i := i.filter (fun c => !(badChars.contains c))
  match schedule with
  | some sch => i ++ '-' :: sch
  | none => i

/-- The amended spec-side ident computation: name lower-cased, each space
REPLACED BY a hyphen, punctuation set stripped, a hyphen plus the schedule
identity suffixed. -/
def identAmended (name : List Char) (schedule : Option (List Char)) : List Char :=
  let i := (name.map Char.toLower).map (fun c => if c = ' ' then '-' else c)
  let i := i.filter (fun c => !(badChars.contains c))
  match schedule with
  | some sch => i ++ '-' :: sch
  | none => i

/-- C4 counterexample: on the name `A B`, the source produces `a-b` (spaces
become hyphens) while the claim's description (spaces removed) gives `ab`. -/
theorem ident_spaces_become_hyphens_not_removed :
    ident (['A', ' ', 'B']) none = ['a', '-', 'b'] ∧
    identClaimed (['A', ' ', 'B']) none = ['a', 'b'] ∧
    ident (['A', ' ', 'B']) none ≠ identClaimed (['A', ' ', 'B']) none := by
  refine ⟨by decide, by decide, by decide⟩

/-- C4 (amended): for every name and optional schedule, the derived ident is
the name lower-cased, with each space replaced by a hyphen, with the
punctuation characters `" ' ( ) * & ? ,` stripped, and with a hyphen plus the
schedule's identity suffixed exactly when a schedule is attached. -/
theorem ident_eq_identAmended (name : List Char) (schedule : Option (List Char)) :
    ident name schedule = identAmended name schedule := by
  simp only [ident, identAmended, pyReplaceChar_single_eq_map, foldl_strip_eq_filter]

/-- C4 witness: the characterization evaluated at a concrete name and
schedule. -/
theorem ident_eq_identAmended_witness :
    ident (['M', 'y', ' ', 'S', 't', 'a', 't', 's', '?']) (some (['d', 'a', 'y']))
      = identAmended (['M', 'y', ' ', 'S', 't', 'a', 't', 's', '?'])
          (some (['d', 'a', 'y'])) :=
  ident_eq_identAmended (['M', 'y', ' ', 'S', 't', 'a', 't', 's', '?'])
    (some (['d', 'a', 'y']))

/-- The descending store query is a permutation of the Model rows. -/
lemma sortDesc_perm (l : List Int) : (sortDesc l).Perm l :=
  List.perm_insertionSort _ l

/-- The descending store query is sorted by nonincreasing timestamp. -/
lemma sortDesc_sorted (l : List Int) :
    List.Sorted (fun a b : Int => b ≤ a) (sortDesc l) :=
  List.sorted_insertionSort _ l

/-- The ascending store query is sorted by nondecreasing timestamp. -/
lemma sortAsc_sorted (l : List Int) :
    List.Sorted (fun a b : Int => a ≤ b) (sortAsc l) :=
  List.sorted_insertionSort _ l

/-- The `.first()` of the descending store query is a maximum-timestamp row. -/
lemma sortDesc_head_is_max (l : List Int) (t : Int)
    (h : (sortDesc l).head? = some t) : t ∈ l ∧ ∀ x ∈ l, x ≤ t := by
  obtain ⟨s, hs⟩ : ∃ s, sortDesc l = t :: s := by
    cases hd : sortDesc l with
    | nil => rw [hd] at h; cases h
    | cons a s =>
        rw [hd] at h
        cases h
        exact ⟨s, rfl⟩
  constructor
  · exact (sortDesc_perm l).mem_iff.mp (by rw [hs]; exact List.mem_cons_self t s)
  · intro x hx
    have hx2 : x ∈ sortDesc l := (sortDesc_perm l).mem_iff.mpr hx
    rw [hs] at hx2
    rcases List.mem_cons.mp hx2 with h1 | h2
    · exact le_of_eq h1
    · have hsorted := sortDesc_sorted l
      rw [hs] at hsorted
      exact (List.sorted_cons.mp hsorted).1 x h2

/-- The `.first()` of the descending store query is `None` exactly on an empty
Model. -/
lemma sortDesc_head_none_iff (l : List Int) :
    (sortDesc l).head? = none ↔ l = [] := by
  rw [List.head?_eq_none_iff]
  constructor
  · intro h
    exact List.eq_nil_of_length_eq_zero (by rw [← (sortDesc_perm l).length_eq, h]; rfl)
  · intro h
    subst h
    rfl

/-- C10: plugin-model results are ordered ascending by timestamp exactly when
the `order` query argument equals the string `asc`; when the argument is
absent or has any other value, results are ordered descending (the default).
In both cases the result is a permutation of the Model rows. -/
theorem orderedQuery_asc_iff_order_asc (order : Option String) (rows : List Int) :
    (order = some ("asc") →
      orderedQuery order rows = sortAsc rows ∧
      List.Sorted (fun a b : Int => a ≤ b) (orderedQuery order rows)) ∧
    (order ≠ some ("asc") →
      orderedQuery order rows = sortDesc rows ∧
      List.Sorted (fun a b : Int => b ≤ a) (orderedQuery order rows)) ∧
    (orderedQuery order rows).Perm rows := by
  by_cases h : order = some ("asc")
  · refine ⟨fun _ => ⟨by simp [orderedQuery, h], ?_⟩, fun hn => absurd h hn, ?_⟩
    · simp only [orderedQuery, if_pos h]
      exact sortAsc_sorted rows
    · simp only [orderedQuery, if_pos h]
      exact List.perm_insertionSort _ rows
  · refine ⟨fun ha => absurd ha h, fun _ => ⟨by simp [orderedQuery, h], ?_⟩, ?_⟩
    · simp only [orderedQuery, if_neg h]
      exact sortDesc_sorted rows
    · simp only [orderedQuery, if_neg h]
      exact sortDesc_perm rows

/-- C10 witness: with the argument absent the result is the descending query;
with `asc` it is the ascending query. -/
theorem orderedQuery_asc_iff_order_asc_witness :
    orderedQuery none [2, 1, 3] = sortDesc [2, 1, 3] ∧
    orderedQuery (some ("asc")) [2, 1, 3] = sortAsc [2, 1, 3] :=
  ⟨((orderedQuery_asc_iff_order_asc none [2, 1, 3]).2.1 (by decide)).1,
   ((orderedQuery_asc_iff_order_asc (some ("asc")) [2, 1, 3]).1 rfl).1⟩

/-- C5: paginating a 25-row result set with `rows_per_page = 10` yields a page
count of 3, and page 3 holds exactly the 5 rows at offsets 20 through 24. -/
theorem paginate_25_rows_page3 (rows : List Int) (h : rows.length = 25) :
    (paginate rows 3 (some 10)).2 = 3 ∧
    (paginate rows 3 (some 10)).1 = rows.drop 20 ∧
    ((paginate rows 3 (some 10)).1).length = 5 := by
  have e1 : (paginate rows 3 (some 10)).1 = (rows.drop 20).take 10 := rfl
  have hd : (rows.drop 20).length = 5 := by
    rw [List.length_drop, h]
  refine ⟨?_, ?_, ?_⟩
  · simp only [paginate]
    rw [h]
    decide
  · rw [e1]
    exact List.take_of_length_le (by rw [hd]; decide)
  · rw [e1, List.length_take, hd]
    decide

/-- C5 witness: pagination evaluated on the concrete 25-row result set
`0, 1, ..., 24`. -/
theorem paginate_25_rows_page3_witness :
    (paginate (List.map Int.ofNat (List.range 25)) 3 (some 10)).2 = 3 ∧
    (paginate (List.map Int.ofNat (List.range 25)) 3 (some 10)).1
      = (List.map Int.ofNat (List.range 25)).drop 20 ∧
    ((paginate (List.map Int.ofNat (List.range 25)) 3 (some 10)).1).length = 5 :=
  paginate_25_rows_page3 (List.map Int.ofNat (List.range 25))
    (by rw [List.length_map, List.length_range])

/-- C1: with `backlog_delta = B`, `latest` returns the maximum of the most
recent Model row timestamp and `now - B`: the result is an upper bound of all
rows, is one of those two candidates, and is never earlier than `now - B`,
even on an empty Model.  Without a backlog limit, `latest` is the most recent
row timestamp, or the `None` sentinel on an empty Model. -/
theorem latest_is_max_of_newest_and_backlog_floor (rows : List Int) (B now : Int) :
    (∃ t, latest rows (some B) now = some t ∧ now - B ≤ t ∧
      (∀ r ∈ rows, r ≤ t) ∧ (t ∈ rows ∨ t = now - B)) ∧
    (rows = [] → latest rows none now = none) ∧
    (∀ t, latest rows none now = some t → t ∈ rows ∧ ∀ r ∈ rows, r ≤ t) := by
  have hwith : latest rows (some B) now = pyMax ((sortDesc rows).head?) (some (now - B)) ∧
      latest rows none now = (sortDesc rows).head? := by
    constructor
    · simp only [latest, pyListMax, List.foldl_cons, List.foldl_nil]
      cases (sortDesc rows).head? <;> rfl
    · simp only [latest, pyListMax, List.foldl_nil]
  refine ⟨?_, ?_, ?_⟩
  · rcases hd : (sortDesc rows).head? with _ | m
    · refine ⟨now - B, ?_, le_refl _, ?_, Or.inr rfl⟩
      · rw [hwith.1, hd]
        rfl
      · intro r hr
        rw [(sortDesc_head_none_iff rows).mp hd] at hr
        cases hr
    · obtain ⟨hmem, hmax⟩ := sortDesc_head_is_max rows m hd
      refine ⟨max m (now - B), ?_, le_max_right m (now - B), ?_, ?_⟩
      · rw [hwith.1, hd]
        rfl
      · intro r hr
        exact le_trans (hmax r hr) (le_max_left m (now - B))
      · rcases max_choice m (now - B) with hc | hc
        · rw [hc]
          exact Or.inl hmem
        · rw [hc]
          exact Or.inr rfl
  · intro h
    subst h
    rfl
  · intro t ht
    rw [hwith.2] at ht
    exact sortDesc_head_is_max rows t ht

/-- C1 witness: on the empty Model with `backlog_delta = 3` and `now = 10`,
`latest` is at least `10 - 3`; without a backlog limit the empty Model yields
the `None` sentinel; and on the Model `[5, 2]` with no backlog limit the value
5 is a row timestamp that bounds all rows. -/
theorem latest_is_max_of_newest_and_backlog_floor_witness :
    (∃ t, latest ([] : List Int) (some 3) 10 = some t ∧ 10 - 3 ≤ t) ∧
    latest ([] : List Int) none 10 = none ∧
    (5 : Int) ∈ ([5, 2] : List Int) := by
  refine ⟨?_, (latest_is_max_of_newest_and_backlog_floor [] 3 10).2.1 rfl, ?_⟩
  · obtain ⟨t, h1, h2, -, -⟩ := (latest_is_max_of_newest_and_backlog_floor [] 3 10).1
    exact ⟨t, h1, h2⟩
  · exact ((latest_is_max_of_newest_and_backlog_floor [5, 2] 0 0).2.2 5 (by decide)).1

end Statscache
